import Mathlib

/-!
Verification development for the trace instrumentation engine of
`parea/trace_utils/trace.py`.

The engine is shallowly embedded: Python runtime values become the
inductive `PyVal`; the module-level mutable state (the context stack
`trace_context`, the record store `trace_data`, the wall clock and the
uuid source) becomes the structure `State`, threaded explicitly; Python
exceptions become the `Err`-carrying result `Res`.  Python dicts are
modelled as insertion-ordered association lists with unique keys, with
`dictGet` / `dictSet` mirroring `d[k]` / `d[k] = v`.

Wall-clock time (`time.time()`) is abstracted to a monotone counter held
in the state; `to_date_and_time_string` renders it injectively.  The
uuid source (`uuid4`) is abstracted to a fresh-name counter: the only
property the code relies on is that successive draws are distinct.
-/

/-- Universe of Python runtime values appearing in the traced programs:
`None`, booleans, numbers (ints and the exact floats arising here,
modelled as rationals), strings, lists, dicts with string keys, and
instances of the `CompletionResponse` attrs class (whose field list
lives in `parea/schemas/models.py`; modelled from the spec: a
"recognized response type" whose fields can be flattened to a mapping). -/
inductive PyVal where
  | none : PyVal
  | bool (b : Bool) : PyVal
  | num (q : Rat) : PyVal
  | str (s : String) : PyVal
  | list (l : List PyVal) : PyVal
  | dict (d : List (String × PyVal)) : PyVal
  | completionResponse (fields : List (String × PyVal)) : PyVal

mutual

/-- Structural boolean equality on `PyVal` (used to build decidable
equality, which the deriving handler does not supply for nested
inductives). -/
def pyBeq : PyVal → PyVal → Bool
  | .none, .none => true
  | .bool a, .bool b => a == b
  | .num a, .num b => a == b
  | .str a, .str b => a == b
  | .list l1, .list l2 => pyBeqList l1 l2
  | .dict d1, .dict d2 => pyBeqPairs d1 d2
  | .completionResponse d1, .completionResponse d2 => pyBeqPairs d1 d2
  | _, _ => false

/-- Pointwise `pyBeq` on lists. -/
def pyBeqList : List PyVal → List PyVal → Bool
  | [], [] => true
  | a :: as, b :: bs => pyBeq a b && pyBeqList as bs
  | _, _ => false

/-- Pointwise `pyBeq` on key-value lists. -/
def pyBeqPairs : List (String × PyVal) → List (String × PyVal) → Bool
  | [], [] => true
  | (k1, v1) :: as, (k2, v2) :: bs => k1 == k2 && pyBeq v1 v2 && pyBeqPairs as bs
  | _, _ => false

end

mutual

theorem pyBeq_refl : ∀ (a : PyVal), pyBeq a a = true
  | .none => rfl
  | .bool b => by simp [pyBeq]
  | .num q => by simp [pyBeq]
  | .str s => by simp [pyBeq]
  | .list l => pyBeqList_refl l
  | .dict d => pyBeqPairs_refl d
  | .completionResponse d => pyBeqPairs_refl d

theorem pyBeqList_refl : ∀ (l : List PyVal), pyBeqList l l = true
  | [] => rfl
  | a :: rest => by simp [pyBeqList, pyBeq_refl a, pyBeqList_refl rest]

theorem pyBeqPairs_refl : ∀ (d : List (String × PyVal)), pyBeqPairs d d = true
  | [] => rfl
  | (k, v) :: rest => by simp [pyBeqPairs, pyBeq_refl v, pyBeqPairs_refl rest]

end

mutual

theorem pyBeq_sound : ∀ (a b : PyVal), pyBeq a b = true → a = b
  | a, b, h => by
    cases a <;> cases b <;> simp only [pyBeq] at h <;>
      first
        | rfl
        | exact absurd h Bool.false_ne_true
        | (simp only [beq_iff_eq] at h; rw [h])
        | exact congrArg PyVal.list (pyBeqList_sound _ _ h)
        | exact congrArg PyVal.dict (pyBeqPairs_sound _ _ h)
        | exact congrArg PyVal.completionResponse (pyBeqPairs_sound _ _ h)

theorem pyBeqList_sound : ∀ (l1 l2 : List PyVal), pyBeqList l1 l2 = true → l1 = l2
  | [], [], _ => rfl
  | [], _ :: _, h => absurd h (by simp [pyBeqList])
  | _ :: _, [], h => absurd h (by simp [pyBeqList])
  | a :: as, b :: bs, h => by
    simp only [pyBeqList, Bool.and_eq_true] at h
    rw [pyBeq_sound a b h.1, pyBeqList_sound as bs h.2]

theorem pyBeqPairs_sound :
    ∀ (d1 d2 : List (String × PyVal)), pyBeqPairs d1 d2 = true → d1 = d2
  | [], [], _ => rfl
  | [], _ :: _, h => absurd h (by simp [pyBeqPairs])
  | _ :: _, [], h => absurd h (by simp [pyBeqPairs])
  | (k1, v1) :: as, (k2, v2) :: bs, h => by
    simp only [pyBeqPairs, Bool.and_eq_true] at h
    have hk : k1 = k2 := by simpa using h.1.1
    rw [hk, pyBeq_sound v1 v2 h.1.2, pyBeqPairs_sound as bs h.2]

end

instance : DecidableEq PyVal := fun a b =>
  if h : pyBeq a b = true then isTrue (pyBeq_sound a b h)
  else isFalse (fun he => h (he ▸ pyBeq_refl a))

/-- Python exceptions that the embedded fragment can raise:
`IndexError` (empty-list indexing / pop), `KeyError` (missing dict key),
`AttributeError` (unknown attribute), and an arbitrary exception value
raised by a wrapped function body. -/
inductive Err where
  | indexError : Err
  | keyError : Err
  | attributeError : Err
  | raised (msg : String) : Err
deriving DecidableEq, Repr

/-- First-match lookup in an insertion-ordered association list
(Python `d[k]` on a dict, whose keys are unique by construction). -/
def dictGet {β : Type} : List (String × β) → String → Option β
  | [], _ => Option.none
  | (k0, v0) :: rest, k => if k0 = k then some v0 else dictGet rest k

/-- Python `d[k] = v`: replace the binding in place when the key is
present (keeping its position), append it otherwise. -/
def dictSet {β : Type} : List (String × β) → String → β → List (String × β)
  | [], k, v => [(k, v)]
  | (k0, v0) :: rest, k, v =>
      if k0 = k then (k0, v) :: rest else (k0, v0) :: dictSet rest k v

/-- Python `k in d`. -/
def dictHas {β : Type} (d : List (String × β)) (k : String) : Bool :=
  (dictGet d k).isSome

/-- Python dict comprehension over a pair list: repeated insertion into
an initially empty dict (later occurrences of a key overwrite earlier
ones, as in `dict(pairs)`). -/
def dictOfPairs {β : Type} (pairs : List (String × β)) : List (String × β) :=
  pairs.foldl (fun d kv => dictSet d kv.1 kv.2) []

/-- Python `d.update(kw)`: insert every binding of `kw` into `d` in
order. -/
def dictUpdate {β : Type} (d kw : List (String × β)) : List (String × β) :=
  kw.foldl (fun d kv => dictSet d kv.1 kv.2) d

/-- Python truthiness (`bool(v)`) on the embedded value universe: `None`
and `False` are falsy, numbers are falsy exactly at zero, strings and
collections are falsy exactly when empty; attrs instances define no
`__bool__`/`__len__` and are always truthy. -/
def truthy : PyVal → Bool
  | .none => false
  | .bool b => b
  | .num q => if q = 0 then false else true
  | .str s => if s = ("") then false else true
  | .list l => !l.isEmpty
  | .dict d => !d.isEmpty
  | .completionResponse _ => true

/-- The dict produced by Python `dict(ChainMap(new, old))`: the keys of
`old` in their order (each bound to `new`'s value when `new` has the
key, else `old`'s value), followed by the keys of `new` absent from
`old`, in `new`'s order.  This equals `\x7b**old, **new\x7d`. -/
def chainMapDict (new old : List (String × PyVal)) : List (String × PyVal) :=
  old.map (fun kv => (kv.1, (dictGet new kv.1).getD kv.2))
    ++ new.filter (fun kv => !(dictHas old kv.1))

/-- Embedding of `merge(old, new)` from `trace.py`:
dict × dict combines via `dict(ChainMap(new, old))`, list × list
concatenates, anything else is replaced by `new`. -/
def merge (old new : PyVal) : PyVal :=
  match old, new with
  | .dict d1, .dict d2 => .dict (chainMapDict d2 d1)
  | .list l1, .list l2 => .list (l1 ++ l2)
  | _, _ => new

/-- Recognizer for mapping values (Python `isinstance(v, dict)`). -/
def PyVal.isDict : PyVal → Bool
  | .dict _ => true
  | _ => false

/-- Recognizer for ordered-sequence values (Python `isinstance(v, list)`). -/
def PyVal.isList : PyVal → Bool
  | .list _ => true
  | _ => false

/-- Modelled from the spec: the `TraceLog` record class of
`parea/schemas/models.py` (not under `src/`).  One record per
instrumented invocation, holding the §3 fields; `end_timestamp` and
`output` start unset and `children` starts empty.  Fields are kept at
the dynamic value type, as Python does not enforce field types at
runtime. -/
structure TraceLog where
  trace_id : PyVal := .none
  trace_name : PyVal := .none
  start_timestamp : PyVal := .none
  end_timestamp : PyVal := .none
  end_user_identifier : PyVal := .none
  metadata : PyVal := .none
  target : PyVal := .none
  tags : PyVal := .none
  inputs : PyVal := .none
  output : PyVal := .none
  children : PyVal := .list []
deriving DecidableEq

instance : Inhabited TraceLog := ⟨{}⟩

/-- Python `getattr(record, key)` restricted to the `TraceLog` field
names; `Option.none` models `AttributeError`. -/
def TraceLog.getField (r : TraceLog) (k : String) : Option PyVal :=
  if k = ("trace_id") then some r.trace_id
  else if k = ("trace_name") then some r.trace_name
  else if k = ("start_timestamp") then some r.start_timestamp
  else if k = ("end_timestamp") then some r.end_timestamp
  else if k = ("end_user_identifier") then some r.end_user_identifier
  else if k = ("metadata") then some r.metadata
  else if k = ("target") then some r.target
  else if k = ("tags") then some r.tags
  else if k = ("inputs") then some r.inputs
  else if k = ("output") then some r.output
  else if k = ("children") then some r.children
  else Option.none

/-- Python `setattr(record, key, v)` restricted to the `TraceLog` field
names; `Option.none` models `AttributeError`. -/
def TraceLog.setField (r : TraceLog) (k : String) (v : PyVal) : Option TraceLog :=
  if k = ("trace_id") then some { r with trace_id := v }
  else if k = ("trace_name") then some { r with trace_name := v }
  else if k = ("start_timestamp") then some { r with start_timestamp := v }
  else if k = ("end_timestamp") then some { r with end_timestamp := v }
  else if k = ("end_user_identifier") then some { r with end_user_identifier := v }
  else if k = ("metadata") then some { r with metadata := v }
  else if k = ("target") then some { r with target := v }
  else if k = ("tags") then some { r with tags := v }
  else if k = ("inputs") then some { r with inputs := v }
  else if k = ("output") then some { r with output := v }
  else if k = ("children") then some { r with children := v }
  else Option.none

/-- The module-level mutable state of `trace.py`, threaded explicitly:
the context stack of active trace ids (`trace_context`), the record
store (`trace_data`), the fresh-id counter standing in for `uuid4`, the
wall-clock counter standing in for `time.time()`, and the list of
records handed to the emitter (`parea_logger.record_log`). -/
structure State where
  stack : List String
  store : List (String × TraceLog)
  nextId : Nat
  clock : Nat
  emitted : List TraceLog
deriving DecidableEq

/-- Outcome of one embedded computation step: Python state mutation plus
either a returned value or a raised exception (the mutated state is
observable on both paths, as Python mutates in place). -/
inductive Res (α : Type) where
  | ok (v : α) (s : State) : Res α
  | err (e : Err) (s : State) : Res α
deriving DecidableEq

/-- The state either outcome carries. -/
def Res.state {α : Type} : Res α → State
  | .ok _ s => s
  | .err _ s => s

/-- Whether the computation raised. -/
def Res.isErr {α : Type} : Res α → Bool
  | .ok _ _ => false
  | .err _ _ => true

/-- An embedded stateful Python computation. -/
def M (α : Type) : Type := State → Res α

/-- Embedding of `to_date_and_time_string`: renders the abstract clock
injectively (the concrete `strftime` format carries no structure the
engine depends on). -/
def to_date_and_time_string (t : Nat) : String :=
  ("ts-") ++ toString t

/-- The trace id drawn for counter value `n` (stands in for
`str(uuid4())`; freshness of the counter models uuid uniqueness). -/
def freshId (n : Nat) : String := toString n


/-- Embedding of the truthiness-guarded field update performed by each
iteration of `trace_insert`'s loop:
`merge(existing_value, new_value) if existing_value else new_value`. -/
def guardedMerge (existing new : PyVal) : PyVal :=
  if truthy existing then merge existing new else new

/-- The body of `trace_insert`'s `for key, new_value in data.items()`
loop, threading the (in-place mutated) record; an unknown field name
raises `AttributeError`, leaving updates already applied in place.  (The
`print` call in the loop is an output side effect with no bearing on
state and is not modelled.) -/
def traceInsertLoop : TraceLog → List (String × PyVal) → Except (Err × TraceLog) TraceLog
  | rec, [] => .ok rec
  | rec, (key, nv) :: rest =>
    match rec.getField key with
    | Option.none => .error (.attributeError, rec)
    | some existing =>
      match rec.setField key (guardedMerge existing nv) with
      | Option.none => .error (.attributeError, rec)
      | some rec' => traceInsertLoop rec' rest

/-- Embedding of `trace_insert(data)`: resolve the top of the context
stack (`trace_context.get()[-1]`, raising `IndexError` on an empty
stack), look the record up in the store (raising `KeyError` if absent),
then run the update loop; the record object is mutated in place, so
partial updates persist when the loop raises. -/
def trace_insert (data : List (String × PyVal)) : M Unit := fun s =>
  match s.stack.getLast? with
  | Option.none => .err .indexError s
  | some tid =>
    match dictGet s.store tid with
    | Option.none => .err .keyError s
    | some rec =>
      match traceInsertLoop rec data with
      | .ok rec' => .ok () { s with store := dictSet s.store tid rec' }
      | .error (e, rec') => .err e { s with store := dictSet s.store tid rec' }

/-- Follows the spec's words for §4.4/§4.3 ("sets the record's field to
merge(current_field_value, new_value)"): the same loop body with the
truthiness guard dropped, i.e. the unconditional merge.  Used only to
compare against the source's guarded loop. -/
def traceInsertSpecLoop : TraceLog → List (String × PyVal) → Except (Err × TraceLog) TraceLog
  | rec, [] => .ok rec
  | rec, (key, nv) :: rest =>
    match rec.getField key with
    | Option.none => .error (.attributeError, rec)
    | some existing =>
      match rec.setField key (merge existing nv) with
      | Option.none => .error (.attributeError, rec)
      | some rec' => traceInsertSpecLoop rec' rest

/-- The spec-worded variant of `trace_insert`, built on the
unconditional-merge loop. -/
def trace_insert_spec (data : List (String × PyVal)) : M Unit := fun s =>
  match s.stack.getLast? with
  | Option.none => .err .indexError s
  | some tid =>
    match dictGet s.store tid with
    | Option.none => .err .keyError s
    | some rec =>
      match traceInsertSpecLoop rec data with
      | .ok rec' => .ok () { s with store := dictSet s.store tid rec' }
      | .error (e, rec') => .err e { s with store := dictSet s.store tid rec' }

mutual

/-- Generic serialization (`json.dumps`) on the embedded values.  The
rendering of scalars is abstracted (numbers print as `num` or
`num/den`); what the engine relies on is that serialization succeeds
exactly on JSON-serializable values.  An attrs instance is not
JSON-serializable: as in Python, reaching one (at any depth) raises
`TypeError`, found depth-first left-to-right. -/
def json_dumps : PyVal → Except Err String
  | .none => .ok ("null")
  | .bool b => .ok (if b then ("true") else ("false"))
  | .num q =>
      .ok (if q.den = 1 then toString q.num
           else toString q.num ++ ("/") ++ toString q.den)
  | .str s => .ok (("\"") ++ s ++ ("\""))
  | .list l =>
      match jsonItems l with
      | .ok body => .ok (("[") ++ body ++ ("]"))
      | .error e => .error e
  | .dict d =>
      match jsonFields d with
      | .ok body => .ok (("\x7b") ++ body ++ ("\x7d"))
      | .error e => .error e
  | .completionResponse _ => .error (.raised ("TypeError"))

/-- Comma-separated serialization of list items, raising at the first
non-serializable item. -/
def jsonItems : List PyVal → Except Err String
  | [] => .ok ("")
  | [v] => json_dumps v
  | v :: rest =>
      match json_dumps v, jsonItems rest with
      | .ok a, .ok b => .ok (a ++ (", ") ++ b)
      | .error e, _ => .error e
      | _, .error e => .error e

/-- Comma-separated serialization of dict entries, raising at the first
non-serializable value. -/
def jsonFields : List (String × PyVal) → Except Err String
  | [] => .ok ("")
  | [(k, v)] =>
      match json_dumps v with
      | .ok a => .ok (("\"") ++ k ++ ("\": ") ++ a)
      | .error e => .error e
  | (k, v) :: rest =>
      match json_dumps v, jsonFields rest with
      | .ok a, .ok b => .ok (("\"") ++ k ++ ("\": ") ++ a ++ (", ") ++ b)
      | .error e, _ => .error e
      | _, .error e => .error e

end

mutual

/-- Modelled from the spec and attrs `asdict` semantics
(`CompletionResponse` lives in `parea/schemas/models.py`, not under
`src/`): recursively convert attrs instances to mappings, descending
into lists and dict values as `attrs.asdict(·, recurse=True)` does. -/
def asdictVal : PyVal → PyVal
  | .completionResponse fields => .dict (asdictPairs fields)
  | .list l => .list (asdictList l)
  | .dict d => .dict (asdictPairs d)
  | v => v

/-- `asdictVal` over list elements. -/
def asdictList : List PyVal → List PyVal
  | [] => []
  | v :: rest => asdictVal v :: asdictList rest

/-- `asdictVal` over dict values. -/
def asdictPairs : List (String × PyVal) → List (String × PyVal)
  | [] => []
  | (k, v) :: rest => (k, asdictVal v) :: asdictPairs rest

end

/-- Embedding of the wrapper's pre-serialization step
`asdict(result) if isinstance(result, CompletionResponse) else result`:
only a top-level recognized response value has its fields flattened to
a mapping (recursively, per `asdict`); anything else — including a
response object nested inside a plain container — passes through
unchanged to generic serialization. -/
def flattenOutput : PyVal → PyVal
  | .completionResponse fields => .dict (asdictPairs fields)
  | v => v

/-- The `inputs` construction of `init_trace`:
`\x7bk: v for k, v in zip(parameters.keys(), args)\x7d` followed by
`inputs.update(kwargs)`. -/
def build_inputs (params : List String) (args : List PyVal)
    (kwargs : List (String × PyVal)) : List (String × PyVal) :=
  dictUpdate (dictOfPairs (params.zip args)) kwargs

/-- The parent resolution of `init_trace`, applied to the stack as it
stands after the new id was pushed:
`trace_context.get()[-2] if len(trace_context.get()) > 1 else None`,
followed by the truthiness test `if parent_trace_id:` (an empty string
is falsy). -/
def parentOf (stack : List String) : Option String :=
  if stack.length > 1 then
    match stack[stack.length - 2]? with
    | some p => if p = ("") then Option.none else some p
    | Option.none => Option.none
  else Option.none

/-- Embedding of `init_trace(func_name, args, kwargs, func)` together
with the decorator parameters it closes over (`name`, `tags`,
`metadata`, `target`, `end_user_identifier`): draw a fresh trace id,
push it, build `inputs`, create the record (with
`trace_name = name or func_name` and `start_timestamp = now()`), store
it, and, when a parent is on the stack below, append the new id to the
parent record's `children` (raising `KeyError` if the parent id is not
in the store, `AttributeError` if its `children` does not support
`append`; both already after the push, as in the source). -/
def init_trace (func_name : String) (args : List PyVal)
    (kwargs : List (String × PyVal)) (params : List String)
    (nm tg md tgt eui : PyVal) : M String := fun s =>
  let tid := freshId s.nextId
  let stack' := s.stack ++ [tid]
  let inputs := build_inputs params args kwargs
  let record : TraceLog :=
    { trace_id := .str tid
      start_timestamp := .str (to_date_and_time_string s.clock)
      trace_name := if truthy nm then nm else .str func_name
      end_user_identifier := eui
      metadata := md
      target := tgt
      tags := tg
      inputs := .dict inputs }
  let s1 : State :=
    { s with stack := stack', store := dictSet s.store tid record,
             nextId := s.nextId + 1, clock := s.clock + 1 }
  match parentOf stack' with
  | Option.none => .ok tid s1
  | some p =>
    match dictGet s1.store p with
    | Option.none => .err .keyError s1
    | some prec =>
      match prec.children with
      | .list l =>
          .ok tid { s1 with
            store := dictSet s1.store p { prec with children := .list (l ++ [.str tid]) } }
      | _ => .err .attributeError s1

/-- Embedding of `cleanup_trace(trace_id)`: hand the record to the
emitter (the detached logging thread receives `trace_data.get()[trace_id]`
when the thread object is built, raising `KeyError` if absent), then pop
the stack (`list.pop()` raises `IndexError` on an empty stack, after
the emitter hand-off). -/
def cleanup_trace (tid : String) : M Unit := fun s =>
  match dictGet s.store tid with
  | Option.none => .err .keyError s
  | some rec =>
    match s.stack with
    | [] => .err .indexError { s with emitted := s.emitted ++ [rec] }
    | _ :: _ =>
        .ok () { s with emitted := s.emitted ++ [rec], stack := s.stack.dropLast }

/-- The end-of-span timestamp write, which the source performs before
the output serialization: stamp `end_timestamp` from the current clock
and advance the clock.  When `json.dumps` then raises, this is the only
record update that has happened. -/
def stampEnd (tid : String) (rec : TraceLog) (s2 : State) : State :=
  { s2 with clock := s2.clock + 1,
            store := dictSet s2.store tid
              { rec with end_timestamp := .str (to_date_and_time_string s2.clock) } }

/-- The wrapper's full success-path finalization: the `end_timestamp`
write followed by the `output` write on the same record object (the
second attribute write's store lookup necessarily finds the record just
written, so the two in-place mutations are modelled as the cumulative
record update). -/
def finalize (tid : String) (rec : TraceLog) (out : String) (s2 : State) : State :=
  { s2 with clock := s2.clock + 1,
            store := dictSet s2.store tid
              { rec with
                end_timestamp := .str (to_date_and_time_string s2.clock)
                output := .str out } }

/-- Embedding of the decorator's `wrapper` (and of `async_wrapper`,
which is textually identical up to `await`; cooperative suspension is
transparent in the state-passing embedding, so one definition covers
both calling conventions): run `init_trace`; run the wrapped body under
`try`; on success stamp `end_timestamp`, then serialize the flattened
result into `output` — a serialization `TypeError` is raised inside the
`try` after the stamp, caught by `except` (which only logs) and
re-raised; on every path run `cleanup_trace` as the `finally` block
(whose own exception would replace the in-flight one); re-raise a body
exception unchanged, and otherwise return the body's result.  An
exception inside `init_trace` itself precedes the `try` and propagates
without cleanup. -/
def wrapper (func_name : String) (params : List String)
    (nm tg md tgt eui : PyVal) (body : M PyVal)
    (args : List PyVal) (kwargs : List (String × PyVal)) : M PyVal := fun s =>
  match init_trace func_name args kwargs params nm tg md tgt eui s with
  | .err e s' => .err e s'
  | .ok tid s1 =>
    match body s1 with
    | .ok result s2 =>
      match dictGet s2.store tid with
      | Option.none =>
        match cleanup_trace tid s2 with
        | .ok _ s3 => .err .keyError s3
        | .err e2 s3 => .err e2 s3
      | some rec =>
        match json_dumps (flattenOutput result) with
        | .error eJson =>
          match cleanup_trace tid (stampEnd tid rec s2) with
          | .ok _ s4 => .err eJson s4
          | .err e2 s4 => .err e2 s4
        | .ok out =>
          match cleanup_trace tid (finalize tid rec out s2) with
          | .ok _ s4 => .ok result s4
          | .err e2 s4 => .err e2 s4
    | .err e s2 =>
      match cleanup_trace tid s2 with
      | .ok _ s3 => .err e s3
      | .err e2 s3 => .err e2 s3

instance : Monad M where
  pure v := fun s => .ok v s
  bind m f := fun s =>
    match m s with
    | .ok v s' => f v s'
    | .err e s' => .err e s'

/-- Python `+` as used by the demo functions (numeric addition;
non-numeric operands raise `TypeError`). -/
def pyAdd (a b : PyVal) : M PyVal := fun s =>
  match a, b with
  | .num x, .num y => .ok (.num (x + y)) s
  | _, _ => .err (.raised ("TypeError")) s

/-- Python `*` as used by the demo functions. -/
def pyMul (a b : PyVal) : M PyVal := fun s =>
  match a, b with
  | .num x, .num y => .ok (.num (x * y)) s
  | _, _ => .err (.raised ("TypeError")) s

/-- Python `/` (true division; the operands arising in the demo are
exactly representable, so rational division is exact). -/
def pyDiv (a b : PyVal) : M PyVal := fun s =>
  match a, b with
  | .num x, .num y =>
      if y = 0 then .err (.raised ("ZeroDivisionError")) s else .ok (.num (x / y)) s
  | _, _ => .err (.raised ("TypeError")) s

/-- The initial module state: empty stack and store (the `ContextVar`
defaults), counters at zero, nothing emitted. -/
def initState : State :=
  { stack := [], store := [], nextId := 0, clock := 0, emitted := [] }

/-- The traced `run_child1(x): return 1 + x`. -/
def run_child1 (x : PyVal) : M PyVal :=
  wrapper ("run_child1") [("x")] .none .none .none .none .none
    (pyAdd (.num 1) x) [x] []

/-- The traced `run_grand_child1(z)`: insert metadata into the current
record via `trace_insert`, then `return 3 * z`. -/
def run_grand_child1 (z : PyVal) : M PyVal :=
  wrapper ("run_grand_child1") [("z")] .none .none .none .none .none
    (do
      trace_insert [(("metadata"), .dict [(("internal"), .bool true), (("tokens"), .num 3)])]
      pyMul (.num 3) z)
    [z] []

/-- The traced `run_child2(y): return run_grand_child1(y) + y`. -/
def run_child2 (y : PyVal) : M PyVal :=
  wrapper ("run_child2") [("y")] .none .none .none .none .none
    (do
      let res ← run_grand_child1 y
      pyAdd res y)
    [y] []

/-- The body of the traced `parent(x, y)`:
`answer1 = run_child1(x); answer2 = run_child2(y);
return (answer1 + answer2) / 2`. -/
def parentBody (x y : PyVal) : M PyVal := do
  let answer1 ← run_child1 x
  let answer2 ← run_child2 y
  let total ← pyAdd answer1 answer2
  pyDiv total (.num 2)

/-- The traced `parent` invoked with keyword arguments, as in the
spec's scenario `parent(x=2, y=3)`. -/
def parent_kwcall (x y : PyVal) : M PyVal :=
  wrapper ("parent") [("x"), ("y")] .none .none .none .none .none
    (parentBody x y) [] [(("x"), x), (("y"), y)]

/-- The spec scenario's run: `parent(x=2, y=3)` from the initial
state. -/
def scenarioRun : Res PyVal := parent_kwcall (.num 2) (.num 3) initState

/-- The trace ids present in a run's final store, in creation order. -/
def storeIds (r : Res PyVal) : List String := r.state.store.map Prod.fst

/-- The `children` field of the record stored under a given id. -/
def childrenAt (r : Res PyVal) (tid : String) : Option PyVal :=
  (dictGet r.state.store tid).map TraceLog.children

/-- The `trace_name` field of the record stored under a given id. -/
def nameAt (r : Res PyVal) (tid : String) : Option PyVal :=
  (dictGet r.state.store tid).map TraceLog.trace_name

/-- C2: Instrumenting `parent(x=2, y=3)`, where `parent` internally
calls `child1(x)` then `child2(y)` and `child2` calls `grandchild(y)`,
yields exactly 4 trace records with pairwise distinct trace ids;
`parent`'s children is `[child1_id, child2_id]` in entry order,
`child2`'s children is `[grandchild_id]`, and `child1` and `grandchild`
have empty children. -/
theorem nested_scenario_trace_tree :
    scenarioRun.isErr = false
    ∧ storeIds scenarioRun = [freshId 0, freshId 1, freshId 2, freshId 3]
    ∧ (storeIds scenarioRun).Nodup
    ∧ nameAt scenarioRun (freshId 0) = some (.str ("parent"))
    ∧ nameAt scenarioRun (freshId 1) = some (.str ("run_child1"))
    ∧ nameAt scenarioRun (freshId 2) = some (.str ("run_child2"))
    ∧ nameAt scenarioRun (freshId 3) = some (.str ("run_grand_child1"))
    ∧ childrenAt scenarioRun (freshId 0) = some (.list [.str (freshId 1), .str (freshId 2)])
    ∧ childrenAt scenarioRun (freshId 1) = some (.list [])
    ∧ childrenAt scenarioRun (freshId 2) = some (.list [.str (freshId 3)])
    ∧ childrenAt scenarioRun (freshId 3) = some (.list []) :=
  ⟨rfl, rfl, by decide, rfl, rfl, rfl, rfl, rfl, rfl, rfl, rfl⟩

/-- Shared-state concurrency scenario for the lineage-isolation claim:
`trace_context` and `trace_data` are module-level `ContextVar`s created
once with mutable default objects (`[]` and an empty dict) and the
engine never rebinds them with `set`; under Python semantics, `get()`
in a context with no explicit binding returns that same default object,
in every OS thread and in every asyncio task (task contexts copy the
variable mapping, not the default).  So all lineages read and mutate one
shared stack and store.  Here lineage A enters a traced `task_a()`, and
while A's span is open an independent lineage B enters `task_b()` on
that shared state. -/
def sharedAfterA : State :=
  (init_trace ("task_a") [] [] [] .none .none .none .none .none initState).state

/-- The shared state after lineage B's entry interleaves with A's open
span. -/
def sharedAfterB : State :=
  (init_trace ("task_b") [] [] [] .none .none .none .none .none sharedAfterA).state

/-- C9: the isolation invariant fails on the code.  With the shared
default stack, lineage B's `init_trace` reads lineage A's id as
second-from-top and appends B's fresh span to A's record's `children` —
a trace record appearing as a child of a record from a different
lineage, which the claim says can never happen. -/
theorem shared_context_cross_lineage_child :
    (dictGet sharedAfterB.store (freshId 0)).map TraceLog.trace_name = some (.str ("task_a"))
    ∧ (dictGet sharedAfterB.store (freshId 1)).map TraceLog.trace_name = some (.str ("task_b"))
    ∧ (dictGet sharedAfterB.store (freshId 0)).map TraceLog.children
        = some (.list [.str (freshId 1)])
    ∧ sharedAfterB.stack = [freshId 0, freshId 1] :=
  ⟨rfl, rfl, rfl, rfl⟩

/-- C8: calling `trace_insert` with an empty context stack raises
(`trace_context.get()[-1]` is an `IndexError` on the empty list) before
anything is written: the returned state is the input state, so the
record store is unchanged. -/
theorem trace_insert_empty_stack (data : List (String × PyVal)) (s : State)
    (h : s.stack = []) :
    trace_insert data s = .err .indexError s := by
  unfold trace_insert
  rw [h]
  rfl

/-- Witness for `trace_insert_empty_stack` at a concrete input. -/
theorem trace_insert_empty_stack_witness :
    trace_insert [(("metadata"), .num 1)] initState = .err .indexError initState :=
  trace_insert_empty_stack [(("metadata"), .num 1)] initState rfl

/-- Right-biased choice on lookup results: the first operand when
present, else the second. -/
def firstSome {α : Type} : Option α → Option α → Option α
  | some v, _ => some v
  | Option.none, o => o

theorem dictGet_append {β : Type} (l1 l2 : List (String × β)) (k : String) :
    dictGet (l1 ++ l2) k = firstSome (dictGet l1 k) (dictGet l2 k) := by
  induction l1 with
  | nil => rfl
  | cons kv rest ih =>
    obtain ⟨k0, v0⟩ := kv
    by_cases hk : k0 = k <;> simp [dictGet, hk, ih, firstSome]

theorem dictGet_mapValues (new old : List (String × PyVal)) (k : String) :
    dictGet (old.map (fun kv => (kv.1, (dictGet new kv.1).getD kv.2))) k
      = (dictGet old k).map (fun v => (dictGet new k).getD v) := by
  induction old with
  | nil => rfl
  | cons kv rest ih =>
    obtain ⟨k0, v0⟩ := kv
    by_cases hk : k0 = k
    · subst hk; simp [dictGet]
    · simp [dictGet, hk, ih]

theorem dictGet_filterKeys {β : Type} (d : List (String × β)) (p : String → Bool)
    (k : String) :
    dictGet (d.filter (fun kv => p kv.1)) k
      = if p k then dictGet d k else Option.none := by
  induction d with
  | nil => simp [dictGet]
  | cons kv rest ih =>
    obtain ⟨k0, v0⟩ := kv
    by_cases hk : k0 = k
    · subst hk
      by_cases hp : p k0 <;> simp [List.filter, hp, dictGet, ih]
    · by_cases hp : p k0 <;> simp [List.filter, hp, dictGet, hk, ih]

theorem dictGet_chainMapDict (new old : List (String × PyVal)) (k : String) :
    dictGet (chainMapDict new old) k = firstSome (dictGet new k) (dictGet old k) := by
  unfold chainMapDict
  rw [dictGet_append, dictGet_mapValues new old k,
    dictGet_filterKeys new (fun key => !dictHas old key) k]
  cases hold : dictGet old k <;> cases hnew : dictGet new k <;>
    simp [dictHas, hold, hnew, firstSome]

/-- C3: `merge` returns the right-biased union when both values are
mappings (incoming wins on key collision, keys unique to existing are
preserved — captured by the lookup characterization), the concatenation
`existing ++ incoming` when both are ordered sequences, and `incoming`
in every other case; in particular the four example equations hold. -/
theorem merge_semantics :
    (∀ (d1 d2 : List (String × PyVal)), ∃ d, merge (.dict d1) (.dict d2) = .dict d
        ∧ ∀ k, dictGet d k = firstSome (dictGet d2 k) (dictGet d1 k))
    ∧ (∀ (l1 l2 : List PyVal), merge (.list l1) (.list l2) = .list (l1 ++ l2))
    ∧ (∀ (v w : PyVal), (v.isDict && w.isDict) = false → (v.isList && w.isList) = false →
        merge v w = w)
    ∧ merge (.dict [(("a"), .num 1)]) (.dict [(("b"), .num 2)])
        = .dict [(("a"), .num 1), (("b"), .num 2)]
    ∧ merge (.dict [(("a"), .num 1)]) (.dict [(("a"), .num 2)])
        = .dict [(("a"), .num 2)]
    ∧ merge (.list [.num 1, .num 2]) (.list [.num 3]) = .list [.num 1, .num 2, .num 3]
    ∧ merge .none (.str ("x")) = .str ("x") := by
  refine ⟨?_, ?_, ?_, by decide, by decide, by decide, by decide⟩
  · intro d1 d2
    exact ⟨chainMapDict d2 d1, rfl, fun k => dictGet_chainMapDict d2 d1 k⟩
  · intro l1 l2
    rfl
  · intro v w hd hl
    cases v <;> cases w <;> simp_all [merge, PyVal.isDict, PyVal.isList]

/-- Witness for `merge_semantics`: its replacement clause applied at a
concrete non-mapping, non-sequence pair. -/
theorem merge_semantics_witness : merge .none (.str ("x")) = .str ("x") :=
  merge_semantics.2.2.1 .none (.str ("x")) rfl rfl

theorem merge_empty_dict (incoming : PyVal) : merge (.dict []) incoming = incoming := by
  cases incoming <;> simp [merge, chainMapDict, dictHas, dictGet]

theorem merge_falsy (existing incoming : PyVal) (h : truthy existing = false) :
    merge existing incoming = incoming := by
  cases existing with
  | none => cases incoming <;> rfl
  | bool b => cases incoming <;> rfl
  | num q => cases incoming <;> rfl
  | str s => cases incoming <;> rfl
  | completionResponse d => simp [truthy] at h
  | list l =>
    cases l with
    | nil => cases incoming <;> simp [merge]
    | cons a rest => simp [truthy] at h
  | dict d =>
    cases d with
    | nil => exact merge_empty_dict incoming
    | cons kv rest => simp [truthy] at h

theorem guardedMerge_eq (existing incoming : PyVal) :
    guardedMerge existing incoming = merge existing incoming := by
  unfold guardedMerge
  cases h : truthy existing with
  | true => rfl
  | false => simp [merge_falsy existing incoming h]

theorem traceInsertLoop_eq_spec :
    ∀ (rec : TraceLog) (data : List (String × PyVal)),
      traceInsertLoop rec data = traceInsertSpecLoop rec data
  | _, [] => rfl
  | rec, (key, nv) :: rest => by
    unfold traceInsertLoop traceInsertSpecLoop
    simp only [guardedMerge_eq]
    split
    · rfl
    · split
      · rfl
      · exact traceInsertLoop_eq_spec _ rest

/-- C10: the truthiness-guarded update performed by `trace_insert` —
`merge(existing, incoming) if existing else incoming` — is extensionally
equal to the unconditional `merge(existing, incoming)`, because `merge`
applied to a falsy existing value already yields `incoming` in every
branch; consequently `trace_insert` coincides with its
unconditional-merge variant on every input. -/
theorem trace_insert_guard_redundant :
    (∀ (existing incoming : PyVal),
        guardedMerge existing incoming = merge existing incoming)
    ∧ ∀ (data : List (String × PyVal)) (s : State),
        trace_insert data s = trace_insert_spec data s := by
  refine ⟨guardedMerge_eq, ?_⟩
  intro data s
  unfold trace_insert trace_insert_spec
  split
  · rfl
  · split
    · rfl
    · rw [traceInsertLoop_eq_spec]

theorem firstSome_none_right {α : Type} (o : Option α) :
    firstSome o Option.none = o := by
  cases o <;> rfl

theorem dictGet_dictSet {β : Type} (d : List (String × β)) (k k' : String) (v : β) :
    dictGet (dictSet d k v) k' = if k = k' then some v else dictGet d k' := by
  induction d with
  | nil => simp [dictSet, dictGet]
  | cons kv rest ih =>
    obtain ⟨k0, v0⟩ := kv
    by_cases h0 : k0 = k
    · subst h0
      by_cases h1 : k0 = k' <;> simp [dictSet, dictGet, h1]
    · have hset : dictSet ((k0, v0) :: rest) k v = (k0, v0) :: dictSet rest k v := by
        simp [dictSet, h0]
      rw [hset]
      by_cases h1 : k0 = k'
      · have hkk : ¬(k = k') := fun h2 => h0 (h1.trans h2.symm)
        simp [dictGet, h1, hkk]
      · simp [dictGet, h1, ih]

theorem dictGet_dictSet_self {β : Type} (d : List (String × β)) (k : String) (v : β) :
    dictGet (dictSet d k v) k = some v := by
  rw [dictGet_dictSet]
  simp

theorem dictHas_dictSet_mono {β : Type} (d : List (String × β)) (k k' : String) (v : β)
    (h : dictHas d k' = true) : dictHas (dictSet d k v) k' = true := by
  unfold dictHas at h ⊢
  rw [dictGet_dictSet]
  by_cases hk : k = k' <;> simp [hk, h]

theorem dictGet_eq_none_of_not_mem {β : Type} (d : List (String × β)) (k : String)
    (h : k ∉ d.map Prod.fst) : dictGet d k = Option.none := by
  induction d with
  | nil => rfl
  | cons kv rest ih =>
    obtain ⟨k0, v0⟩ := kv
    rw [List.map_cons] at h
    have hk : ¬(k0 = k) := fun hh => h (by rw [← hh]; exact List.mem_cons_self _ _)
    have hrest : k ∉ rest.map Prod.fst := fun hh => h (List.mem_cons_of_mem _ hh)
    simp [dictGet, hk, ih hrest]

theorem dictGet_reverse {β : Type} (d : List (String × β)) (k : String)
    (hnd : (d.map Prod.fst).Nodup) : dictGet d.reverse k = dictGet d k := by
  induction d with
  | nil => rfl
  | cons kv rest ih =>
    obtain ⟨k0, v0⟩ := kv
    rw [List.map_cons] at hnd
    have hnd1 : k0 ∉ rest.map Prod.fst := (List.nodup_cons.mp hnd).1
    have hnd2 : (rest.map Prod.fst).Nodup := (List.nodup_cons.mp hnd).2
    rw [List.reverse_cons, dictGet_append, ih hnd2]
    by_cases hk : k0 = k
    · subst hk
      have hnone : dictGet rest k0 = Option.none :=
        dictGet_eq_none_of_not_mem rest k0 hnd1
      simp [hnone, dictGet, firstSome]
    · simp [dictGet, hk, firstSome_none_right]

theorem dictGet_foldl_set {β : Type} :
    ∀ (l : List (String × β)) (d0 : List (String × β)) (k : String),
      dictGet (l.foldl (fun d kv => dictSet d kv.1 kv.2) d0) k
        = firstSome (dictGet l.reverse k) (dictGet d0 k)
  | [], d0, k => rfl
  | (k0, v0) :: rest, d0, k => by
    rw [List.foldl_cons, dictGet_foldl_set rest (dictSet d0 k0 v0) k,
      List.reverse_cons, dictGet_append, dictGet_dictSet]
    cases dictGet rest.reverse k <;> by_cases hk : k0 = k <;>
      simp [firstSome, dictGet, hk]

theorem mem_of_getLast? {α : Type} {xs : List α} {a : α} (h : xs.getLast? = some a) :
    a ∈ xs := by
  rw [List.getLast?_eq_getElem?] at h
  exact List.getElem?_mem h

/-- Well-formedness used by the wrapper lemmas, true of every state the
engine itself builds: every id on the context stack has a record in the
store, and that record's `children` field is a list (so that
`children.append` succeeds). -/
def StackWF (s : State) : Prop :=
  ∀ id ∈ s.stack, ∃ r, dictGet s.store id = some r ∧ ∃ l, r.children = PyVal.list l

theorem parentOf_append (xs : List String) (t : String) :
    parentOf (xs ++ [t])
      = (match xs.getLast? with
         | some p => if p = ("") then Option.none else some p
         | Option.none => Option.none) := by
  cases hxs : xs.getLast? with
  | none =>
    have hnil : xs = [] := List.getLast?_eq_none_iff.mp hxs
    subst hnil
    rfl
  | some p =>
    have hne : xs ≠ [] := by
      intro hh
      subst hh
      simp at hxs
    have hpos : 0 < xs.length := List.length_pos.mpr hne
    unfold parentOf
    have hlen : (xs ++ [t]).length = xs.length + 1 := by simp
    rw [hlen]
    rw [if_pos (by omega)]
    have hidx : xs.length + 1 - 2 = xs.length - 1 := by omega
    rw [hidx]
    rw [List.getElem?_append_left (by omega)]
    rw [← List.getLast?_eq_getElem?, hxs]

theorem dictGet_dictSet_other_then_self {β : Type} (d : List (String × β))
    (k k2 : String) (v v2 : β) (h : ¬(k2 = k)) :
    dictGet (dictSet (dictSet d k v) k2 v2) k = some v := by
  rw [dictGet_dictSet, if_neg h, dictGet_dictSet_self]

theorem parentOf_append_none (xs : List String) (t : String)
    (h : xs.getLast? = Option.none) : parentOf (xs ++ [t]) = Option.none := by
  rw [parentOf_append, h]

theorem parentOf_append_some (xs : List String) (t p : String)
    (h : xs.getLast? = some p) :
    parentOf (xs ++ [t]) = if p = ("") then Option.none else some p := by
  rw [parentOf_append, h]

theorem init_trace_ok (func_name : String) (args : List PyVal)
    (kwargs : List (String × PyVal)) (params : List String)
    (nm tg md tgt eui : PyVal) (s : State) (hwf : StackWF s) :
    ∃ s1 rec, init_trace func_name args kwargs params nm tg md tgt eui s
        = .ok (freshId s.nextId) s1
      ∧ s1.stack = s.stack ++ [freshId s.nextId]
      ∧ dictGet s1.store (freshId s.nextId) = some rec
      ∧ rec.inputs = .dict (build_inputs params args kwargs)
      ∧ rec.output = PyVal.none
      ∧ rec.end_timestamp = PyVal.none
      ∧ (∀ k, dictHas s.store k = true → dictHas s1.store k = true) := by
  simp only [init_trace]
  cases hlast : s.stack.getLast? with
  | none =>
    rw [parentOf_append_none _ _ hlast]
    refine ⟨_, _, rfl, rfl, dictGet_dictSet_self _ _ _, rfl, rfl, rfl, ?_⟩
    intro k hk
    exact dictHas_dictSet_mono _ _ _ _ hk
  | some p =>
    by_cases hp : p = ("")
    · rw [parentOf_append_some _ _ _ hlast, if_pos hp]
      simp only []
      refine ⟨_, _, rfl, rfl, dictGet_dictSet_self _ _ _, rfl, rfl, rfl, ?_⟩
      intro k hk
      exact dictHas_dictSet_mono _ _ _ _ hk
    · rw [parentOf_append_some _ _ _ hlast, if_neg hp]
      simp only []
      obtain ⟨r, hr, l, hl⟩ := hwf p (mem_of_getLast? hlast)
      by_cases hpt : p = freshId s.nextId
      · subst hpt
        rw [dictGet_dictSet_self]
        refine ⟨_, _, rfl, rfl, dictGet_dictSet_self _ _ _, rfl, rfl, rfl, ?_⟩
        intro k hk
        exact dictHas_dictSet_mono _ _ _ _ (dictHas_dictSet_mono _ _ _ _ hk)
      · have hr' : dictGet s.store p = some { r with children := PyVal.list l } := by
          rw [← hl]
          exact hr
        rw [dictGet_dictSet, if_neg (fun hh => hpt hh.symm), hr']
        refine ⟨_, _, rfl, rfl, dictGet_dictSet_other_then_self _ _ _ _ _ hpt, rfl, rfl,
          rfl, ?_⟩
        intro k hk
        exact dictHas_dictSet_mono _ _ _ _ (dictHas_dictSet_mono _ _ _ _ hk)

theorem cleanup_trace_ok (tid t : String) (xs : List String) (s : State)
    (hstk : s.stack = xs ++ [t]) (hhas : dictHas s.store tid = true) :
    ∃ rec, dictGet s.store tid = some rec
      ∧ cleanup_trace tid s = .ok () { s with stack := xs, emitted := s.emitted ++ [rec] } := by
  obtain ⟨rec, hrec⟩ := Option.isSome_iff_exists.mp hhas
  refine ⟨rec, hrec, ?_⟩
  unfold cleanup_trace
  rw [hrec, hstk]
  cases xs with
  | nil => rfl
  | cons a rest =>
    have hd : (a :: (rest ++ [t])).dropLast = a :: rest := by
      rw [← List.cons_append, List.dropLast_concat]
    simp [hd]

theorem init_trace_shape (func_name : String) (args : List PyVal)
    (kwargs : List (String × PyVal)) (params : List String)
    (nm tg md tgt eui : PyVal) (s : State) (tid : String) (s1 : State)
    (h : init_trace func_name args kwargs params nm tg md tgt eui s = .ok tid s1) :
    tid = freshId s.nextId ∧ s1.stack = s.stack ++ [tid] := by
  simp only [init_trace] at h
  split at h
  · injection h with h1 h2
    subst h1
    subst h2
    exact ⟨rfl, rfl⟩
  · split at h
    · cases h
    · split at h
      · injection h with h1 h2
        subst h1
        subst h2
        exact ⟨rfl, rfl⟩
      · cases h

/-- Tameness of a wrapped body, satisfied by every computation the
engine composes (nested traced calls restore the stack by the balance
property itself, and the engine only ever adds or updates store
entries): the body leaves the context stack as it found it and removes
no store key, on the success and the raise path alike. -/
def BodyTame (body : M PyVal) : Prop :=
  ∀ s1, (body s1).state.stack = s1.stack
    ∧ ∀ k, dictHas s1.store k = true → dictHas (body s1).state.store k = true

/-- C1: for every traced call with a well-formed starting state and a
tame body, the trace id is pushed exactly once on entry (the stack the
body runs on is the caller's stack plus the new id on top) and popped
exactly once on exit, on the normal-return and the raised-exception path
alike: the stack after the call equals the stack before the call. -/
theorem wrapper_restores_stack (func_name : String) (params : List String)
    (nm tg md tgt eui : PyVal) (body : M PyVal) (args : List PyVal)
    (kwargs : List (String × PyVal)) (s : State)
    (hwf : StackWF s) (htame : BodyTame body) :
    (∃ s1, init_trace func_name args kwargs params nm tg md tgt eui s
        = .ok (freshId s.nextId) s1
      ∧ s1.stack = s.stack ++ [freshId s.nextId])
    ∧ (wrapper func_name params nm tg md tgt eui body args kwargs s).state.stack
        = s.stack := by
  obtain ⟨s1, rec0, hinit, hstk1, hrec1, _, _, _, hmono1⟩ :=
    init_trace_ok func_name args kwargs params nm tg md tgt eui s hwf
  refine ⟨⟨s1, hinit, hstk1⟩, ?_⟩
  have htid1 : dictHas s1.store (freshId s.nextId) = true := by
    unfold dictHas
    rw [hrec1]
    rfl
  unfold wrapper
  rw [hinit]
  simp only []
  cases hb : body s1 with
  | ok result s2 =>
    simp only []
    have hst2 : s2.stack = s1.stack := by
      have hh := (htame s1).1
      rw [hb] at hh
      exact hh
    have htid2 : dictHas s2.store (freshId s.nextId) = true := by
      have hh := (htame s1).2 (freshId s.nextId) htid1
      rw [hb] at hh
      exact hh
    obtain ⟨rec2, hrec2⟩ := Option.isSome_iff_exists.mp htid2
    rw [hrec2]
    simp only []
    cases hj : json_dumps (flattenOutput result) with
    | error eJson =>
      simp only []
      obtain ⟨recc, hgetc, hclean⟩ := cleanup_trace_ok (freshId s.nextId) (freshId s.nextId)
        s.stack (stampEnd (freshId s.nextId) rec2 s2)
        (by
          show s2.stack = s.stack ++ [freshId s.nextId]
          rw [hst2, hstk1])
        (by
          unfold stampEnd dictHas
          rw [dictGet_dictSet_self]
          rfl)
      rw [hclean]
      rfl
    | ok out =>
      simp only []
      obtain ⟨recc, hgetc, hclean⟩ := cleanup_trace_ok (freshId s.nextId) (freshId s.nextId)
        s.stack (finalize (freshId s.nextId) rec2 out s2)
        (by
          show s2.stack = s.stack ++ [freshId s.nextId]
          rw [hst2, hstk1])
        (by
          unfold finalize dictHas
          rw [dictGet_dictSet_self]
          rfl)
      rw [hclean]
      rfl
  | err e s2 =>
    simp only []
    have hst2 : s2.stack = s1.stack := by
      have hh := (htame s1).1
      rw [hb] at hh
      exact hh
    have htid2 : dictHas s2.store (freshId s.nextId) = true := by
      have hh := (htame s1).2 (freshId s.nextId) htid1
      rw [hb] at hh
      exact hh
    obtain ⟨recc, hgetc, hclean⟩ := cleanup_trace_ok (freshId s.nextId) (freshId s.nextId)
      s.stack s2
      (by rw [hst2, hstk1]) htid2
    rw [hclean]
    rfl

/-- Witness for `wrapper_restores_stack`: a pure body traced from the
initial state. -/
theorem wrapper_restores_stack_witness :
    (∃ s1, init_trace ("f") [] [] [] .none .none .none .none .none initState
        = .ok (freshId 0) s1
      ∧ s1.stack = initState.stack ++ [freshId 0])
    ∧ (wrapper ("f") [] .none .none .none .none .none (fun s => .ok (.num 1) s) [] []
        initState).state.stack = initState.stack :=
  wrapper_restores_stack ("f") [] .none .none .none .none .none
    (fun s => .ok (.num 1) s) [] [] initState
    (fun id hid => absurd hid (List.not_mem_nil id))
    (fun s1 => ⟨rfl, fun k hk => hk⟩)

/-- C5: when the wrapped body raises, the wrapper re-raises exactly the
same exception value to the caller after its cleanup — the
instrumentation never swallows, replaces, or alters the body's error
(the `except` clause only logs and re-raises; covers `wrapper` and
`async_wrapper`, embedded as the same function). -/
theorem wrapper_reraises_error (func_name : String) (params : List String)
    (nm tg md tgt eui : PyVal) (body : M PyVal) (args : List PyVal)
    (kwargs : List (String × PyVal)) (s s1 s2 : State) (tid : String) (e : Err)
    (hinit : init_trace func_name args kwargs params nm tg md tgt eui s = .ok tid s1)
    (hbody : body s1 = .err e s2)
    (hstk : s2.stack = s1.stack)
    (htid : dictHas s2.store tid = true) :
    ∃ s3, wrapper func_name params nm tg md tgt eui body args kwargs s = .err e s3 := by
  obtain ⟨_, hshape⟩ :=
    init_trace_shape func_name args kwargs params nm tg md tgt eui s tid s1 hinit
  obtain ⟨recc, hgetc, hclean⟩ := cleanup_trace_ok tid tid s.stack s2
    (by rw [hstk, hshape]) htid
  unfold wrapper
  rw [hinit]
  simp only []
  rw [hbody]
  simp only []
  rw [hclean]
  exact ⟨_, rfl⟩

/-- Witness for `wrapper_reraises_error`: a body raising a concrete
exception from the initial state. -/
theorem wrapper_reraises_error_witness :
    ∃ s3, wrapper ("f") [] .none .none .none .none .none
        (fun s => .err (.raised ("boom")) s) [] [] initState
      = .err (.raised ("boom")) s3 :=
  wrapper_reraises_error ("f") [] .none .none .none .none .none _ [] []
    initState ((init_trace ("f") [] [] [] .none .none .none .none .none initState).state)
    ((init_trace ("f") [] [] [] .none .none .none .none .none initState).state)
    (freshId 0) (.raised ("boom")) (by decide) rfl rfl (by decide)

/-- C4 counterexample run: a traced nullary `f` whose body raises,
executed from the initial state. -/
def failRun : Res PyVal :=
  wrapper ("f") [] .none .none .none .none .none
    (fun s => .err (.raised ("boom")) s) [] [] initState

/-- C4 as stated is false on the code: after a failing traced call the
record's `end_timestamp` is still unset (`None`), because the lines
stamping it sit after the body call inside the `try` block and the
`except` clause only logs and re-raises.  (The other two parts of the
claim do hold: the call fails outward and the id is popped.) -/
theorem wrapper_failure_no_end_timestamp :
    failRun.isErr = true
    ∧ (dictGet failRun.state.store (freshId 0)).map TraceLog.end_timestamp
        = some PyVal.none
    ∧ failRun.state.stack = [] :=
  ⟨rfl, rfl, rfl⟩

/-- C4 amended: for every traced call whose wrapped body raises, the
wrapper leaves the record exactly as the body left it — in particular
`output` stays unset and `end_timestamp` also stays unset — and the
call's trace id is removed from the context stack before the exception
reaches the caller. -/
theorem wrapper_failure_finalize (func_name : String) (params : List String)
    (nm tg md tgt eui : PyVal) (body : M PyVal) (args : List PyVal)
    (kwargs : List (String × PyVal)) (s s1 s2 : State) (tid : String) (e : Err)
    (rec : TraceLog)
    (hinit : init_trace func_name args kwargs params nm tg md tgt eui s = .ok tid s1)
    (hbody : body s1 = .err e s2)
    (hstk : s2.stack = s1.stack)
    (hrec : dictGet s2.store tid = some rec)
    (hout : rec.output = PyVal.none)
    (hend : rec.end_timestamp = PyVal.none) :
    ∃ s3, wrapper func_name params nm tg md tgt eui body args kwargs s = .err e s3
      ∧ s3.stack = s.stack
      ∧ ∃ rec3, dictGet s3.store tid = some rec3
          ∧ rec3.output = PyVal.none
          ∧ rec3.end_timestamp = PyVal.none := by
  obtain ⟨_, hshape⟩ :=
    init_trace_shape func_name args kwargs params nm tg md tgt eui s tid s1 hinit
  have htid : dictHas s2.store tid = true := by
    unfold dictHas
    rw [hrec]
    rfl
  obtain ⟨recc, hgetc, hclean⟩ := cleanup_trace_ok tid tid s.stack s2
    (by rw [hstk, hshape]) htid
  unfold wrapper
  rw [hinit]
  simp only []
  rw [hbody]
  simp only []
  rw [hclean]
  exact ⟨_, rfl, rfl, rec, hrec, hout, hend⟩

/-- Witness for `wrapper_failure_finalize` at the same concrete failing
call as the counterexample. -/
theorem wrapper_failure_finalize_witness :
    ∃ s3, wrapper ("f") [] .none .none .none .none .none
        (fun s => .err (.raised ("boom")) s) [] [] initState
      = .err (.raised ("boom")) s3
      ∧ s3.stack = initState.stack
      ∧ ∃ rec3, dictGet s3.store (freshId 0) = some rec3
          ∧ rec3.output = PyVal.none
          ∧ rec3.end_timestamp = PyVal.none :=
  wrapper_failure_finalize ("f") [] .none .none .none .none .none _ [] []
    initState ((init_trace ("f") [] [] [] .none .none .none .none .none initState).state)
    ((init_trace ("f") [] [] [] .none .none .none .none .none initState).state)
    (freshId 0) (.raised ("boom"))
    { trace_id := .str (freshId 0), trace_name := .str ("f"),
      start_timestamp := .str (to_date_and_time_string 0), inputs := .dict [] }
    (by decide) rfl rfl (by decide) rfl rfl

/-- C6 counterexample run: a traced nullary `f` whose body returns a
list containing a `CompletionResponse` — the top-level `isinstance`
flatten does not reach it, so `json.dumps` raises `TypeError`. -/
def badSerializeRun : Res PyVal :=
  wrapper ("f") [] .none .none .none .none .none
    (fun s => .ok (.list [.completionResponse []]) s) [] [] initState

/-- C6 as stated is false on the code: for a body returning a value the
flatten step does not make serializable, the wrapper does not return
the value to the caller (it raises `TypeError`) and the record's
`output` is never set (`end_timestamp` is stamped, since that write
precedes the serialization). -/
theorem wrapper_output_typeerror_cex :
    badSerializeRun = .err (.raised ("TypeError")) badSerializeRun.state
    ∧ (dictGet badSerializeRun.state.store (freshId 0)).map TraceLog.output
        = some PyVal.none
    ∧ (dictGet badSerializeRun.state.store (freshId 0)).map TraceLog.end_timestamp
        = some (.str (to_date_and_time_string 1)) :=
  ⟨rfl, rfl, rfl⟩

/-- C6 amended: when the wrapped body returns a value whose
serialization succeeds — the value, after a top-level recognized
response (`CompletionResponse`) is flattened to a mapping, is
JSON-serializable — the wrapper stamps `end_timestamp`, sets `output`
to that serialization, and returns the original value to the caller.
(A value the flatten step leaves non-serializable instead raises
`TypeError` after stamping `end_timestamp`, leaving `output` unset, as
the counterexample shows.) -/
theorem wrapper_success_output (func_name : String) (params : List String)
    (nm tg md tgt eui : PyVal) (body : M PyVal) (args : List PyVal)
    (kwargs : List (String × PyVal)) (s s1 s2 : State) (tid : String) (v : PyVal)
    (rec : TraceLog) (out : String)
    (hinit : init_trace func_name args kwargs params nm tg md tgt eui s = .ok tid s1)
    (hbody : body s1 = .ok v s2)
    (hstk : s2.stack = s1.stack)
    (hrec : dictGet s2.store tid = some rec)
    (hser : json_dumps (flattenOutput v) = .ok out) :
    ∃ s4, wrapper func_name params nm tg md tgt eui body args kwargs s = .ok v s4
      ∧ s4.stack = s.stack
      ∧ dictGet s4.store tid = some { rec with
          end_timestamp := .str (to_date_and_time_string s2.clock),
          output := .str out } := by
  obtain ⟨_, hshape⟩ :=
    init_trace_shape func_name args kwargs params nm tg md tgt eui s tid s1 hinit
  obtain ⟨recc, hgetc, hclean⟩ := cleanup_trace_ok tid tid s.stack
    (finalize tid rec out s2)
    (by
      show s2.stack = s.stack ++ [tid]
      rw [hstk, hshape])
    (by
      unfold finalize dictHas
      rw [dictGet_dictSet_self]
      rfl)
  unfold wrapper
  rw [hinit]
  simp only []
  rw [hbody]
  simp only []
  rw [hrec]
  simp only []
  rw [hser]
  simp only []
  rw [hclean]
  refine ⟨_, rfl, rfl, ?_⟩
  exact dictGet_dictSet_self _ _ _

/-- Witness for `wrapper_success_output`: a pure numeric body traced
from the initial state, whose serialization succeeds. -/
theorem wrapper_success_output_witness :
    ∃ s4, wrapper ("f") [] .none .none .none .none .none
        (fun s => .ok (.num 1) s) [] [] initState = .ok (.num 1) s4
      ∧ s4.stack = initState.stack
      ∧ dictGet s4.store (freshId 0) = some {
          ({ trace_id := .str (freshId 0), trace_name := .str ("f"),
             start_timestamp := .str (to_date_and_time_string 0),
             inputs := .dict [] } : TraceLog) with
          end_timestamp := .str (to_date_and_time_string
            ((init_trace ("f") [] [] [] .none .none .none .none .none initState).state).clock),
          output := .str ("1") } :=
  wrapper_success_output ("f") [] .none .none .none .none .none _ [] []
    initState ((init_trace ("f") [] [] [] .none .none .none .none .none initState).state)
    ((init_trace ("f") [] [] [] .none .none .none .none .none initState).state)
    (freshId 0) (.num 1)
    { trace_id := .str (freshId 0), trace_name := .str ("f"),
      start_timestamp := .str (to_date_and_time_string 0), inputs := .dict [] }
    ("1")
    (by decide) rfl rfl (by decide) rfl

theorem map_fst_zip_sublist {α β : Type} :
    ∀ (l1 : List α) (l2 : List β), ((l1.zip l2).map Prod.fst).Sublist l1
  | [], _ => by simp
  | _ :: _, [] => by simp
  | a :: as, b :: bs => by
    rw [List.zip_cons_cons, List.map_cons]
    exact List.Sublist.cons₂ a (map_fst_zip_sublist as bs)

theorem dictGet_build_inputs (params : List String) (args : List PyVal)
    (kwargs : List (String × PyVal)) (key : String) :
    dictGet (build_inputs params args kwargs) key
      = firstSome (dictGet kwargs.reverse key)
          (dictGet (params.zip args).reverse key) := by
  unfold build_inputs dictUpdate dictOfPairs
  rw [dictGet_foldl_set, dictGet_foldl_set]
  rw [show dictGet ([] : List (String × PyVal)) key = Option.none from rfl]
  rw [firstSome_none_right]

/-- C7: the record's `inputs` mapping is built by pairing the declared
parameter names with the positional arguments in order (`zip`, which
drops unconsumed names or extra positionals), then overlaying the
keyword arguments, a keyword value winning whenever it collides with a
positionally bound name; and `init_trace` stores exactly this mapping in
the new record. -/
theorem traced_inputs_zip_overlay (params : List String) (args : List PyVal)
    (kwargs : List (String × PyVal))
    (hp : params.Nodup) (hk : (kwargs.map Prod.fst).Nodup) :
    (∀ key, dictGet (build_inputs params args kwargs) key
        = firstSome (dictGet kwargs key) (dictGet (params.zip args) key))
    ∧ ∀ (func_name : String) (nm tg md tgt eui : PyVal) (s : State), StackWF s →
        ∃ s1 rec, init_trace func_name args kwargs params nm tg md tgt eui s
            = .ok (freshId s.nextId) s1
          ∧ dictGet s1.store (freshId s.nextId) = some rec
          ∧ rec.inputs = .dict (build_inputs params args kwargs) := by
  constructor
  · intro key
    have hzk : ((params.zip args).map Prod.fst).Nodup :=
      List.Nodup.sublist (map_fst_zip_sublist params args) hp
    rw [dictGet_build_inputs, dictGet_reverse kwargs key hk,
      dictGet_reverse _ key hzk]
  · intro func_name nm tg md tgt eui s hwf
    obtain ⟨s1, rec, hinit, _, hget, hinp, _, _, _⟩ :=
      init_trace_ok func_name args kwargs params nm tg md tgt eui s hwf
    exact ⟨s1, rec, hinit, hget, hinp⟩

/-- Witness for `traced_inputs_zip_overlay`: two declared parameters,
one positional argument, one keyword argument. -/
theorem traced_inputs_zip_overlay_witness :
    dictGet (build_inputs [("x"), ("y")] [.num 5] [(("y"), .num 7)]) ("x")
      = firstSome (dictGet [(("y"), .num 7)] ("x"))
          (dictGet ([("x"), ("y")].zip [.num 5]) ("x")) :=
  (traced_inputs_zip_overlay [("x"), ("y")] [.num 5] [(("y"), .num 7)]
    (by decide) (by decide)).1 ("x")
